import Mathlib

/-!
Shallow embedding of `src/Package.ts` (the dgeni `Package` class): the
JavaScript values the API inspects, the registration state, and the five
registration operations (`processor`, `factory`, `type`, `config`,
`eventHandler`) together with the constructor and the static `isPackage`
check.  Each operation is modelled imperatively: it returns the state after
the call together with `some err` when the call throws, so that "the
descriptor is unchanged on failure" is a real statement about the model.
-/

namespace Dgeni

/-- JavaScript runtime values, as far as the `Package` API inspects them:
primitives, callables (which carry their declared `.name` string, possibly
empty for anonymous functions), arrays and plain objects. -/
inductive JSVal where
  | null
  | undefined
  | bool (b : Bool)
  | num (n : Int)
  | str (s : String)
  | fn (name : String)
  | arr (elems : List JSVal)
  | obj (props : List (String × JSVal))

/-- The JavaScript `typeof` operator on the modelled values. -/
def typeof : JSVal → String
  | .null => "object"
  | .undefined => "undefined"
  | .bool _ => "boolean"
  | .num _ => "number"
  | .str _ => "string"
  | .fn _ => "function"
  | .arr _ => "object"
  | .obj _ => "object"

/-- JavaScript truthiness of the modelled values. -/
def truthy : JSVal → Bool
  | .null => false
  | .undefined => false
  | .bool b => b
  | .num n => n != 0
  | .str s => s != ""
  | .fn _ => true
  | .arr _ => true
  | .obj _ => true

/-- `Array.isArray`. -/
def isArray : JSVal → Bool
  | .arr _ => true
  | _ => false

/-- Errors thrown by the `Package` API: one constructor per `throw new
Error(...)` site of the source, plus the runtime `TypeError` raised by a
property access on `null`/`undefined`. -/
inductive Err where
  | missingPackageName
  | depsNotArray
  | processorDefNoName
  | serviceFactoryNoName
  | serviceFactoryNotFn (actual : String)
  | serviceTypeNoName
  | serviceTypeNotFn
  | configFnNotFn
  | eventNameNotString
  | handlerFactoryNotFn (actual : String)
  | typeError
deriving DecidableEq, Repr

/-- First-match lookup in an association list (JS object property lookup). -/
def jsLookup {α : Type} : List (String × α) → String → Option α
  | [], _ => none
  | (k, v) :: rest, k' => if k = k' then some v else jsLookup rest k'

/-- JS object property assignment on an association list: overwrite the
existing binding in place, else append a new one (insertion order kept). -/
def objSet {α : Type} : List (String × α) → String → α → List (String × α)
  | [], k, v => [(k, v)]
  | (k', v') :: rest, k, v =>
      if k' = k then (k, v) :: rest else (k', v') :: objSet rest k v

/-- Property access `v[key]`; throws a `TypeError` on `null`/`undefined`,
returns `undefined` for absent properties, and exposes the `name` of a
function and the `length` of an array. -/
def getProp : JSVal → String → Except Err JSVal
  | .null, _ => .error .typeError
  | .undefined, _ => .error .typeError
  | .fn n, k => .ok (if k = "name" then .str n else .undefined)
  | .arr es, k => .ok (if k = "length" then .num es.length else .undefined)
  | .obj props, k => .ok ((jsLookup props k).getD .undefined)
  | _, _ => .ok .undefined

/-- The character for a decimal digit. -/
def digitCh (d : Nat) : Char := Char.ofNat (48 + d)

/-- Little-endian decimal digit characters of `n`, with explicit fuel so the
definition is structural (and hence kernel-evaluable). -/
def decDigitsAux : Nat → Nat → List Char
  | 0, _ => []
  | fuel + 1, n => if n = 0 then [] else digitCh (n % 10) :: decDigitsAux fuel (n / 10)

/-- The decimal rendering of a natural number: the JS `ToString` coercion of
a non-negative integer (e.g. of `handlers.length`). -/
def natRepr (n : Nat) : String :=
  if n = 0 then "0" else ⟨(decDigitsAux n n).reverse⟩

mutual
/-- JS `ToString` coercion of the modelled values; an array renders as its
elements joined by commas (`Array.prototype.toString`). -/
def jsToString : JSVal → String
  | .null => "null"
  | .undefined => "undefined"
  | .bool b => cond b "true" "false"
  | .num n => if n < 0 then "-" ++ natRepr (-n).toNat else natRepr n.toNat
  | .str s => s
  | .fn n => "function " ++ n ++ "() { }"
  | .arr es => jsJoin es
  | .obj _ => "[object Object]"
termination_by v => (sizeOf v, 0)
decreasing_by all_goals simp_wf <;> omega

/-- Comma-join of array elements for the JS array coercion. -/
def jsJoin : List JSVal → String
  | [] => ""
  | [v] => jsElemStr v
  | v :: v' :: vs => jsElemStr v ++ "," ++ jsJoin (v' :: vs)
termination_by es => (sizeOf es, 1)
decreasing_by all_goals simp_wf <;> omega

/-- One array element under the JS join: `null`/`undefined` render empty. -/
def jsElemStr : JSVal → String
  | .null => ""
  | .undefined => ""
  | v => jsToString v
termination_by v => (sizeOf v, 1)
decreasing_by all_goals simp_wf <;> omega
end

/-- JS `ToPropertyKey` coercion of a computed member-assignment key: the
identity on strings, the `ToString` coercion otherwise. -/
def toPropertyKey : JSVal → String
  | .str s => s
  | v => jsToString v

/-- The `isObject` helper of the source: truthy and of type `object` or
`function`. -/
def isObject (value : JSVal) : Bool :=
  truthy value && (typeof value = "object" || typeof value = "function")

/-- The `isString` helper of the source. -/
def isString (value : JSVal) : Bool :=
  typeof value = "string"

/-- A module-map entry: the tagged pair (`['factory', f]`, `['value', v]` or
`['type', T]`) written by the registration operations. -/
inductive Entry where
  | factory (v : JSVal)
  | value (v : JSVal)
  | type (v : JSVal)

/-- The state of a `Package` instance: the fields initialised by the class
(`processors`, `configFns`, `handlers`, `module`) plus the constructor
parameters `name` (a string once construction succeeded) and
`dependencies` (stored verbatim). -/
structure Package where
  name : String
  dependencies : JSVal
  processors : List JSVal
  configFns : List JSVal
  handlers : List (String × List String)
  module : List (String × Entry)

/-- `new Package(name, dependencies)`: the `dependencies` parameter defaults
to `[]` when `undefined`; a non-string `name` throws, and `dependencies`
throws only when it is truthy and not an array. -/
def Package.create (name dependencies : JSVal) : Except Err Package :=
  let deps := match dependencies with | .undefined => JSVal.arr [] | d => d
  if typeof name ≠ "string" then .error .missingPackageName
  else if truthy deps && !(isArray deps) then .error .depsNotArray
  else .ok { name := match name with | .str s => s | _ => ""
             dependencies := deps
             processors := []
             configFns := []
             handlers := []
             module := [] }

/-- `Package.isPackage(pkg)`: `isString(pkg.name) &&
Array.isArray(pkg.dependencies) && isObject(pkg.module)`, with JS
short-circuit evaluation; property access on `null`/`undefined` throws. -/
def Package.isPackage (pkg : JSVal) : Except Err Bool := do
  let nameProp ← getProp pkg "name"
  if isString nameProp then
    let depsProp ← getProp pkg "dependencies"
    if isArray depsProp then
      let moduleProp ← getProp pkg "module"
      pure (isObject moduleProp)
    else pure false
  else pure false

/-- The name-resolution pattern shared (syntactically repeated) by
`processor`, `factory` and `type`: take the first argument as the name when
it is a string, otherwise read the first argument's own `name` property and
require it to be truthy (else throw the operation's missing-name error).
Returns the resolved name together with the definition value. -/
def resolveName (missingNameErr : Err) (defOrName defn : JSVal) :
    Except Err (JSVal × JSVal) :=
  if typeof defOrName = "string" then
    .ok (defOrName, defn)
  else
    match getProp defOrName "name" with
    | .error e => .error e
    | .ok nm =>
        if truthy nm then .ok (nm, defOrName)
        else .error missingNameErr

/-- `Package.prototype.processor(processorDefOrName, processorDef)`: resolve
the name (explicit string argument, else the definition's own truthy `name`
property), then write a `factory` entry when the definition is callable and
a `value` entry otherwise, and push the name onto `processors`. -/
def Package.processor (p : Package) (processorDefOrName processorDef : JSVal) :
    Package × Option Err :=
  match resolveName .processorDefNoName processorDefOrName processorDef with
  | .error e => (p, some e)
  | .ok (nm, pd) =>
      let entry := if typeof pd = "function" then Entry.factory pd else Entry.value pd
      ({ p with module := objSet p.module (toPropertyKey nm) entry
                processors := p.processors ++ [nm] }, none)

/-- `Package.prototype.factory(serviceFactoryOrName, serviceFactory)`:
resolve the name as in `processor`, then require the factory to be callable
and write a `factory` entry. -/
def Package.factory (p : Package) (serviceFactoryOrName serviceFactory : JSVal) :
    Package × Option Err :=
  match resolveName .serviceFactoryNoName serviceFactoryOrName serviceFactory with
  | .error e => (p, some e)
  | .ok (nm, sf) =>
      if typeof sf ≠ "function" then (p, some (.serviceFactoryNotFn (typeof sf)))
      else ({ p with module := objSet p.module (toPropertyKey nm) (Entry.factory sf) }, none)

/-- `Package.prototype.type(ServiceTypeOrName, ServiceType)`: resolve the
name as in `processor`, then require the type to be callable and write a
`type` entry. -/
def Package.type (p : Package) (serviceTypeOrName serviceType : JSVal) :
    Package × Option Err :=
  match resolveName .serviceTypeNoName serviceTypeOrName serviceType with
  | .error e => (p, some e)
  | .ok (nm, st) =>
      if typeof st ≠ "function" then (p, some .serviceTypeNotFn)
      else ({ p with module := objSet p.module (toPropertyKey nm) (Entry.type st) }, none)

/-- `Package.prototype.config(configFn)`: require a callable and append it
to `configFns`. -/
def Package.config (p : Package) (configFn : JSVal) : Package × Option Err :=
  if typeof configFn ≠ "function" then (p, some .configFnNotFn)
  else ({ p with configFns := p.configFns ++ [configFn] }, none)

/-- The declared `.name` of a callable. -/
def fnName : JSVal → String
  | .fn n => n
  | _ => ""

/-- `Package.prototype.eventHandler(eventName, handlerFactory)`: validate
the two arguments, ensure `handlers[eventName]` exists, compute the handler
name (the factory's own name, else the synthesized
`name_eventName_count` fallback), delegate to `factory`, and push the
handler name onto `handlers[eventName]`. -/
def Package.eventHandler (p : Package) (eventName handlerFactory : JSVal) :
    Package × Option Err :=
  if typeof eventName ≠ "string" then (p, some .eventNameNotString)
  else if typeof handlerFactory ≠ "function" then
    (p, some (.handlerFactoryNotFn (typeof handlerFactory)))
  else
    let e := toPropertyKey eventName
    let hs := (jsLookup p.handlers e).getD []
    let p1 := { p with handlers := objSet p.handlers e hs }
    let handlerName :=
      if fnName handlerFactory ≠ "" then fnName handlerFactory
      else p.name ++ "_" ++ e ++ "_" ++ natRepr hs.length
    match p1.factory (.str handlerName) handlerFactory with
    | (p2, some err) => (p2, some err)
    | (p2, none) =>
        ({ p2 with handlers := objSet p2.handlers e (hs ++ [handlerName]) }, none)

/-- A package right after successful construction: the initial field values
of the class. -/
def freshPackage (name : String) : Package :=
  { name := name
    dependencies := .arr []
    processors := []
    configFns := []
    handlers := []
    module := [] }

/-- One of the three module-writing registration calls, with its two
arguments: used to state overwrite (last-write-wins) properties uniformly
over `processor`, `factory` and `type`. -/
inductive RegCall where
  | processor (a b : JSVal)
  | factory (a b : JSVal)
  | type (a b : JSVal)

/-- Run a registration call on a package state. -/
def RegCall.apply (c : RegCall) (p : Package) : Package × Option Err :=
  match c with
  | .processor a b => p.processor a b
  | .factory a b => p.factory a b
  | .type a b => p.type a b

/-- The outcome a registration call is determined to have by its arguments
alone: the module key and entry it writes on success, or the error it
throws.  That this function of the arguments predicts `RegCall.apply` on
every state is proved below. -/
def RegCall.result : RegCall → Except Err (String × Entry)
  | .processor a b =>
      match resolveName .processorDefNoName a b with
      | .error e => .error e
      | .ok (nm, pd) =>
          .ok (toPropertyKey nm,
               if typeof pd = "function" then Entry.factory pd else Entry.value pd)
  | .factory a b =>
      match resolveName .serviceFactoryNoName a b with
      | .error e => .error e
      | .ok (nm, sf) =>
          if typeof sf ≠ "function" then .error (.serviceFactoryNotFn (typeof sf))
          else .ok (toPropertyKey nm, Entry.factory sf)
  | .type a b =>
      match resolveName .serviceTypeNoName a b with
      | .error e => .error e
      | .ok (nm, st) =>
          if typeof st ≠ "function" then .error .serviceTypeNotFn
          else .ok (toPropertyKey nm, Entry.type st)

/-! ## Helper lemmas -/

theorem jsLookup_objSet_self {α : Type} (m : List (String × α)) (k : String) (v : α) :
    jsLookup (objSet m k v) k = some v := by
  induction m with
  | nil => simp [objSet, jsLookup]
  | cons hd tl ih =>
      obtain ⟨k', v'⟩ := hd
      by_cases h : k' = k
      · simp [objSet, h, jsLookup]
      · simp [objSet, h, jsLookup, ih]

theorem objSet_objSet {α : Type} (m : List (String × α)) (k : String) (v v' : α) :
    objSet (objSet m k v) k v' = objSet m k v' := by
  induction m with
  | nil => simp [objSet]
  | cons hd tl ih =>
      obtain ⟨k0, v0⟩ := hd
      by_cases h : k0 = k
      · simp [objSet, h]
      · simp [objSet, h, ih]

theorem objSet_keys {α : Type} (m : List (String × α)) (k : String) (v : α) :
    (objSet m k v).map Prod.fst =
      if k ∈ m.map Prod.fst then m.map Prod.fst else m.map Prod.fst ++ [k] := by
  induction m with
  | nil => simp [objSet]
  | cons hd tl ih =>
      obtain ⟨k0, v0⟩ := hd
      by_cases h : k0 = k
      · simp [objSet, h]
      · have h' : ¬ k = k0 := fun hh => h hh.symm
        simp only [objSet, if_neg h, List.map_cons]
        rw [ih]
        by_cases hk : k ∈ tl.map Prod.fst
        · simp [hk, h']
        · simp [hk, h']

theorem decDigitsAux_eq (fuel : Nat) : ∀ n, n ≤ fuel →
    decDigitsAux fuel n = (Nat.digits 10 n).map digitCh := by
  induction fuel with
  | zero =>
      intro n hn
      interval_cases n
      simp [decDigitsAux]
  | succ f ih =>
      intro n hn
      by_cases hz : n = 0
      · simp [decDigitsAux, hz]
      · rw [decDigitsAux, if_neg hz,
            Nat.digits_def' (by norm_num : (1:ℕ) < 10) (Nat.pos_of_ne_zero hz),
            List.map_cons]
        have hdiv : n / 10 < n := Nat.div_lt_self (Nat.pos_of_ne_zero hz) (by norm_num)
        rw [ih (n / 10) (by omega)]

theorem natRepr_eq_digits (n : Nat) :
    natRepr n = if n = 0 then "0" else ⟨((Nat.digits 10 n).map digitCh).reverse⟩ := by
  unfold natRepr
  by_cases hz : n = 0
  · simp [hz]
  · rw [if_neg hz, if_neg hz, decDigitsAux_eq n n le_rfl]

theorem digitCh_lt_inj : ∀ d1, d1 < 10 → ∀ d2, d2 < 10 →
    digitCh d1 = digitCh d2 → d1 = d2 := by decide

theorem map_digitCh_inj : ∀ l1 l2 : List Nat, (∀ d ∈ l1, d < 10) → (∀ d ∈ l2, d < 10) →
    l1.map digitCh = l2.map digitCh → l1 = l2 := by
  intro l1
  induction l1 with
  | nil => intro l2 _ _ h; cases l2 <;> simp_all
  | cons a t ih =>
      intro l2 h1 h2 h
      cases l2 with
      | nil => simp_all
      | cons b t2 =>
          simp only [List.map_cons, List.cons.injEq] at h
          have hab : a = b :=
            digitCh_lt_inj a (h1 a (by simp)) b (h2 b (by simp)) h.1
          have ht : t = t2 :=
            ih t2 (fun d hd => h1 d (by simp [hd])) (fun d hd => h2 d (by simp [hd])) h.2
          rw [hab, ht]

theorem natRepr_ne_zero_str {n : Nat} (h : n ≠ 0) : natRepr n ≠ "0" := by
  rw [natRepr_eq_digits, if_neg h]
  intro hc
  have hdata : ((Nat.digits 10 n).map digitCh).reverse = ['0'] :=
    congrArg String.data hc
  have hmap : (Nat.digits 10 n).map digitCh = ['0'] := by
    have := congrArg List.reverse hdata
    simpa using this
  have hdig : Nat.digits 10 n = [0] := by
    apply map_digitCh_inj
    · exact fun d hd => Nat.digits_lt_base (by norm_num) hd
    · simp
    · rw [hmap]; decide
  have hofd := Nat.ofDigits_digits 10 n
  rw [hdig] at hofd
  simp [Nat.ofDigits] at hofd
  exact h hofd.symm

theorem natRepr_injective : Function.Injective natRepr := by
  intro m n h
  by_cases hm : m = 0
  · by_cases hn : n = 0
    · rw [hm, hn]
    · subst hm
      rw [natRepr_eq_digits 0, if_pos rfl] at h
      exact absurd h.symm (natRepr_ne_zero_str hn)
  · by_cases hn : n = 0
    · subst hn
      rw [natRepr_eq_digits 0, if_pos rfl] at h
      exact absurd h (natRepr_ne_zero_str hm)
    · rw [natRepr_eq_digits m, if_neg hm, natRepr_eq_digits n, if_neg hn] at h
      have hrev : ((Nat.digits 10 m).map digitCh).reverse
          = ((Nat.digits 10 n).map digitCh).reverse := congrArg String.data h
      have hmap : (Nat.digits 10 m).map digitCh = (Nat.digits 10 n).map digitCh := by
        have := congrArg List.reverse hrev
        simpa using this
      have hdig : Nat.digits 10 m = Nat.digits 10 n :=
        map_digitCh_inj _ _ (fun d hd => Nat.digits_lt_base (by norm_num) hd)
          (fun d hd => Nat.digits_lt_base (by norm_num) hd) hmap
      exact Nat.digits_inj_iff.mp hdig

theorem string_append_natRepr_inj (a : String) {m n : Nat}
    (h : a ++ natRepr m = a ++ natRepr n) : m = n := by
  apply natRepr_injective
  apply String.ext
  have hdata := congrArg String.data h
  simp only [String.data_append] at hdata
  exact List.append_cancel_left hdata

theorem processor_str_eq (p : Package) (s : String) (b : JSVal) :
    p.processor (.str s) b =
      ({ p with module := objSet p.module s
                  (if typeof b = "function" then Entry.factory b else Entry.value b)
                processors := p.processors ++ [.str s] }, none) := rfl

theorem factory_str_fn_eq (p : Package) (s n : String) :
    p.factory (.str s) (.fn n) =
      ({ p with module := objSet p.module s (Entry.factory (.fn n)) }, none) := rfl

theorem type_str_fn_eq (p : Package) (s n : String) :
    p.type (.str s) (.fn n) =
      ({ p with module := objSet p.module s (Entry.type (.fn n)) }, none) := rfl

theorem eventHandler_fn_eq (p : Package) (e fname : String) :
    p.eventHandler (.str e) (.fn fname) =
      ({ p with
          module := objSet p.module
            (if fname ≠ "" then fname
             else p.name ++ "_" ++ e ++ "_" ++ natRepr ((jsLookup p.handlers e).getD []).length)
            (Entry.factory (.fn fname))
          handlers := objSet p.handlers e
            ((jsLookup p.handlers e).getD [] ++
             [if fname ≠ "" then fname
              else p.name ++ "_" ++ e ++ "_" ++ natRepr ((jsLookup p.handlers e).getD []).length]) },
       none) := by
  simp only [Package.eventHandler, Package.factory, resolveName, typeof, toPropertyKey, fnName]
  simp [objSet_objSet]

theorem regCall_apply_ok (c : RegCall) (p : Package) (k : String) (en : Entry)
    (h : c.result = .ok (k, en)) :
    (c.apply p).2 = none ∧ ((c.apply p).1).module = objSet p.module k en := by
  cases c with
  | processor a b =>
      simp only [RegCall.result] at h
      cases hr : resolveName .processorDefNoName a b with
      | error e0 => simp only [hr] at h; exact Except.noConfusion h
      | ok v =>
          obtain ⟨nm, pd⟩ := v
          simp only [hr, Except.ok.injEq, Prod.mk.injEq] at h
          obtain ⟨hk, hen⟩ := h
          simp [RegCall.apply, Package.processor, hr, hk, hen]
  | factory a b =>
      simp only [RegCall.result] at h
      cases hr : resolveName .serviceFactoryNoName a b with
      | error e0 => simp only [hr] at h; exact Except.noConfusion h
      | ok v =>
          obtain ⟨nm, sf⟩ := v
          simp only [hr] at h
          by_cases ht : typeof sf = "function"
          · simp only [ht, ne_eq, not_true_eq_false, if_false, ite_false,
              Except.ok.injEq, Prod.mk.injEq, reduceIte] at h
            obtain ⟨hk, hen⟩ := h
            simp [RegCall.apply, Package.factory, hr, ht, hk, hen]
          · rw [if_pos (by simp [ht] : ¬ typeof sf = "function")] at h
            exact absurd h (by simp)
  | type a b =>
      simp only [RegCall.result] at h
      cases hr : resolveName .serviceTypeNoName a b with
      | error e0 => simp only [hr] at h; exact Except.noConfusion h
      | ok v =>
          obtain ⟨nm, st⟩ := v
          simp only [hr] at h
          by_cases ht : typeof st = "function"
          · simp only [ht, ne_eq, not_true_eq_false, if_false, ite_false,
              Except.ok.injEq, Prod.mk.injEq, reduceIte] at h
            obtain ⟨hk, hen⟩ := h
            simp [RegCall.apply, Package.type, hr, ht, hk, hen]
          · rw [if_pos (by simp [ht] : ¬ typeof st = "function")] at h
            exact absurd h (by simp)

theorem regCall_apply_err (c : RegCall) (p : Package) (e : Err)
    (h : c.result = .error e) : c.apply p = (p, some e) := by
  cases c with
  | processor a b =>
      simp only [RegCall.result] at h
      cases hr : resolveName .processorDefNoName a b with
      | error e0 =>
          simp only [hr, Except.error.injEq] at h
          simp [RegCall.apply, Package.processor, hr, h]
      | ok v => obtain ⟨nm, pd⟩ := v; simp only [hr] at h; exact Except.noConfusion h
  | factory a b =>
      simp only [RegCall.result] at h
      cases hr : resolveName .serviceFactoryNoName a b with
      | error e0 =>
          simp only [hr, Except.error.injEq] at h
          simp [RegCall.apply, Package.factory, hr, h]
      | ok v =>
          obtain ⟨nm, sf⟩ := v
          simp only [hr] at h
          by_cases ht : typeof sf = "function"
          · rw [if_neg (by simp [ht] : ¬ ¬ typeof sf = "function")] at h
            exact absurd h (by simp)
          · rw [if_pos (by simp [ht] : ¬ typeof sf = "function")] at h
            simp only [Except.error.injEq] at h
            simp [RegCall.apply, Package.factory, hr, ht, h]
  | type a b =>
      simp only [RegCall.result] at h
      cases hr : resolveName .serviceTypeNoName a b with
      | error e0 =>
          simp only [hr, Except.error.injEq] at h
          simp [RegCall.apply, Package.type, hr, h]
      | ok v =>
          obtain ⟨nm, st⟩ := v
          simp only [hr] at h
          by_cases ht : typeof st = "function"
          · rw [if_neg (by simp [ht] : ¬ ¬ typeof st = "function")] at h
            exact absurd h (by simp)
          · rw [if_pos (by simp [ht] : ¬ typeof st = "function")] at h
            simp only [Except.error.injEq] at h
            simp [RegCall.apply, Package.type, hr, ht, h]

theorem getProp_ok (v : JSVal) (k : String) (h1 : v ≠ .null) (h2 : v ≠ .undefined) :
    ∃ w, getProp v k = .ok w := by
  cases v with
  | null => exact absurd rfl h1
  | undefined => exact absurd rfl h2
  | bool b => exact ⟨_, rfl⟩
  | num n => exact ⟨_, rfl⟩
  | str s => exact ⟨_, rfl⟩
  | fn n => exact ⟨_, rfl⟩
  | arr es => exact ⟨_, rfl⟩
  | obj props => exact ⟨_, rfl⟩

theorem isPackage_eq_getProp (v nv dv mv : JSVal)
    (h1 : getProp v "name" = .ok nv) (h2 : getProp v "dependencies" = .ok dv)
    (h3 : getProp v "module" = .ok mv) :
    Package.isPackage v = .ok (isString nv && isArray dv && isObject mv) := by
  simp only [Package.isPackage, bind, Except.bind, h1, h2, h3]
  by_cases hs : isString nv = true
  · by_cases ha : isArray dv = true
    · simp [hs, ha, pure, Except.pure]
    · simp [hs, ha, pure, Except.pure]
  · simp [hs, pure, Except.pure]

/-! ## Claim theorems -/

/-- C8 counterexample: the claim says a provided non-array `dependencies`
makes construction fail, but `new Package("x", null)` succeeds (the guard
is `dependencies && !Array.isArray(dependencies)`, and `null` is falsy) and
stores `null` verbatim. -/
theorem create_null_deps_counterexample :
    Package.create (.str "x") .null =
      .ok { name := "x", dependencies := .null, processors := [], configFns := [],
            handlers := [], module := [] } := rfl

/-- C8 (amended): for every string name and array dependencies the
constructor succeeds with empty module/processors/configFns/handlers and
the given values verbatim; a non-string name fails with the
missing-package-name error; a truthy non-array `dependencies` fails with
the argument-type error; a falsy `dependencies` other than `undefined`
(e.g. `null`) is accepted and stored verbatim. -/
theorem create_spec :
    (∀ (s : String) (ds : List JSVal),
      Package.create (.str s) (.arr ds) =
        .ok { name := s, dependencies := .arr ds, processors := [], configFns := [],
              handlers := [], module := [] })
    ∧ (∀ s : String, Package.create (.str s) .undefined = .ok (freshPackage s))
    ∧ (∀ v d : JSVal, typeof v ≠ "string" → Package.create v d = .error .missingPackageName)
    ∧ (∀ (s : String) (d : JSVal), truthy d = true → isArray d = false →
        Package.create (.str s) d = .error .depsNotArray)
    ∧ (∀ (s : String) (d : JSVal), d ≠ .undefined → truthy d = false →
        Package.create (.str s) d =
          .ok { name := s, dependencies := d, processors := [], configFns := [],
                handlers := [], module := [] }) := by
  refine ⟨fun s ds => rfl, fun s => rfl, ?_, ?_, ?_⟩
  · intro v d h
    simp [Package.create, h]
  · intro s d h1 h2
    cases d <;> simp_all [Package.create, truthy, isArray, typeof]
  · intro s d h1 h2
    cases d <;> simp_all [Package.create, truthy, typeof, isArray]

/-- C8 witness: the failure branches of `create_spec` at concrete inputs. -/
theorem create_spec_witness :
    Package.create (.num 123) (.arr []) = .error .missingPackageName
    ∧ Package.create (.str "x") (.num 5) = .error .depsNotArray :=
  ⟨create_spec.2.2.1 (.num 123) (.arr []) (by decide),
   create_spec.2.2.2.1 "x" (.num 5) (by decide) (by decide)⟩

/-- C9 counterexample: the claim says `isPackage` never raises on any
input, but `isPackage(null)` reads `null.name` and throws a `TypeError`. -/
theorem isPackage_null_counterexample :
    Package.isPackage .null = .error .typeError := rfl

/-- C9 (amended): for every input other than `null` and `undefined`,
`isPackage` returns a boolean that is true exactly when the value's `name`
property is a string, its `dependencies` property is an array and its
`module` property is object-or-callable — even for plain objects never
built by the constructor — while on `null` and `undefined` the property
access itself throws a `TypeError` instead of returning false. -/
theorem isPackage_spec :
    (∀ v : JSVal, v ≠ .null → v ≠ .undefined →
      ∃ nv dv mv : JSVal,
        getProp v "name" = .ok nv ∧ getProp v "dependencies" = .ok dv
        ∧ getProp v "module" = .ok mv
        ∧ Package.isPackage v = .ok (isString nv && isArray dv && isObject mv))
    ∧ (∀ (props : List (String × JSVal)) (nv dv mv : JSVal),
        jsLookup props "name" = some nv → isString nv = true →
        jsLookup props "dependencies" = some dv → isArray dv = true →
        jsLookup props "module" = some mv →
        Package.isPackage (.obj props) = .ok (isObject mv))
    ∧ Package.isPackage
        (.obj [("name", .str "x"), ("dependencies", .arr []), ("module", .obj [])]) = .ok true
    ∧ Package.isPackage (.obj [("dependencies", .arr []), ("module", .obj [])]) = .ok false
    ∧ Package.isPackage
        (.obj [("name", .num 3), ("dependencies", .arr []), ("module", .obj [])]) = .ok false
    ∧ Package.isPackage (.obj [("name", .str "x"), ("module", .obj [])]) = .ok false
    ∧ Package.isPackage
        (.obj [("name", .str "x"), ("dependencies", .obj []), ("module", .obj [])]) = .ok false
    ∧ Package.isPackage (.obj [("name", .str "x"), ("dependencies", .arr [])]) = .ok false
    ∧ Package.isPackage
        (.obj [("name", .str "x"), ("dependencies", .arr []), ("module", .num 9)]) = .ok false
    ∧ Package.isPackage (.num 42) = .ok false
    ∧ Package.isPackage (.str "s") = .ok false
    ∧ Package.isPackage (.bool true) = .ok false
    ∧ Package.isPackage (.arr []) = .ok false
    ∧ Package.isPackage (.fn "f") = .ok false
    ∧ Package.isPackage .null = .error .typeError
    ∧ Package.isPackage .undefined = .error .typeError := by
  refine ⟨?_, ?_, rfl, rfl, rfl, rfl, rfl, rfl, rfl, rfl, rfl, rfl, rfl, rfl, rfl, rfl⟩
  · intro v h1 h2
    obtain ⟨nv, hn⟩ := getProp_ok v "name" h1 h2
    obtain ⟨dv, hd⟩ := getProp_ok v "dependencies" h1 h2
    obtain ⟨mv, hm⟩ := getProp_ok v "module" h1 h2
    exact ⟨nv, dv, mv, hn, hd, hm, isPackage_eq_getProp v nv dv mv hn hd hm⟩
  · intro props nv dv mv hn hns hd hda hm
    simp [Package.isPackage, getProp, bind, Except.bind, pure, Except.pure, hn, hns, hd, hda, hm]

/-- C9 witness: the general boolean characterisation of `isPackage_spec` at
an object with a non-string name and no other properties, and the
duck-typing clause at an object never built by the constructor. -/
theorem isPackage_spec_witness :
    (∃ nv dv mv : JSVal,
      getProp (.obj [("name", .num 1)]) "name" = .ok nv
      ∧ getProp (.obj [("name", .num 1)]) "dependencies" = .ok dv
      ∧ getProp (.obj [("name", .num 1)]) "module" = .ok mv
      ∧ Package.isPackage (.obj [("name", .num 1)])
          = .ok (isString nv && isArray dv && isObject mv))
    ∧ Package.isPackage
        (.obj [("name", .str "duck"), ("dependencies", .arr [.str "d"]),
               ("module", .fn "m")]) = .ok (isObject (.fn "m")) :=
  ⟨isPackage_spec.1 (.obj [("name", .num 1)]) (fun h => JSVal.noConfusion h)
     (fun h => JSVal.noConfusion h),
   isPackage_spec.2.1 _ (.str "duck") (.arr [.str "d"]) (.fn "m") rfl rfl rfl rfl rfl⟩

/-- C1 counterexample: the claim says `eventHandler("", f)` with callable
`f` fails, but only `typeof eventName !== 'string'` is checked: the empty
event name is accepted, the handler is registered and the descriptor is
mutated. -/
theorem eventHandler_empty_name_counterexample :
    ((freshPackage "pkg").eventHandler (.str "") (.fn "handler")).2 = none
    ∧ jsLookup ((freshPackage "pkg").eventHandler (.str "") (.fn "handler")).1.handlers ""
        = some ["handler"]
    ∧ jsLookup ((freshPackage "pkg").eventHandler (.str "") (.fn "handler")).1.module "handler"
        = some (.factory (.fn "handler")) :=
  ⟨rfl, rfl, rfl⟩

/-- C1 (amended): `eventHandler` fails with a configuration error and
leaves the descriptor unchanged when `eventName` is not a string or
`handlerFactory` is not callable; an empty-string `eventName` is accepted
(only stringness is validated, not non-emptiness). -/
theorem eventHandler_validation :
    (∀ (p : Package) (e f : JSVal), typeof e ≠ "string" ∨ typeof f ≠ "function" →
        p.eventHandler e f =
          (p, some (if typeof e ≠ "string" then .eventNameNotString
                    else .handlerFactoryNotFn (typeof f))))
    ∧ (∀ (p : Package) (n : String), (p.eventHandler (.str "") (.fn n)).2 = none) := by
  constructor
  · intro p e f h
    by_cases he : typeof e = "string"
    · rcases h with h1 | h2
      · exact absurd he h1
      · simp [Package.eventHandler, he, h2]
    · simp [Package.eventHandler, he]
  · intro p n
    simp [eventHandler_fn_eq]

/-- C1 witness: the validation failure of `eventHandler_validation` at a
numeric event name. -/
theorem eventHandler_validation_witness :
    (freshPackage "pkg").eventHandler (.num 1) (.fn "f")
      = (freshPackage "pkg", some .eventNameNotString) :=
  eventHandler_validation.1 (freshPackage "pkg") (.num 1) (.fn "f") (Or.inl (by decide))

/-- C2 counterexample: the claim says no successful registration ever
writes a module entry under the empty-string name, but an explicit
empty-string name argument is accepted by `factory` and the entry is
written under the key `""`. -/
theorem empty_key_counterexample :
    ((freshPackage "p").factory (.str "") (.fn "f")).2 = none
    ∧ ((freshPackage "p").factory (.str "") (.fn "f")).1.module
        = [("", .factory (.fn "f"))] :=
  ⟨rfl, rfl⟩

/-- C2 (amended): the module map can acquire an empty-string key: each of
`processor`, `factory` and `type` accepts an explicit empty-string name
argument and writes its entry under `""` (the truthiness check on a
definition's own name applies only when no explicit name is passed). -/
theorem empty_name_registrations :
    ∀ (p : Package) (d : JSVal) (n : String),
      (p.processor (.str "") d).2 = none
      ∧ jsLookup ((p.processor (.str "") d).1).module ""
          = some (if typeof d = "function" then Entry.factory d else Entry.value d)
      ∧ (p.factory (.str "") (.fn n)).2 = none
      ∧ jsLookup ((p.factory (.str "") (.fn n)).1).module "" = some (.factory (.fn n))
      ∧ (p.type (.str "") (.fn n)).2 = none
      ∧ jsLookup ((p.type (.str "") (.fn n)).1).module "" = some (.type (.fn n)) := by
  intro p d n
  refine ⟨?_, ?_, ?_, ?_, ?_, ?_⟩ <;>
    simp [processor_str_eq, factory_str_fn_eq, type_str_fn_eq, jsLookup_objSet_self]

/-- C3: when the handler factory is anonymous, the synthesized registration
name is `{packageName}_{eventName}_{count}` with `count` the number of
handlers already registered for that event; on a package named "core" and
event "docsProcessed" two anonymous handlers get names
"core_docsProcessed_0" and "core_docsProcessed_1"; synthesized names for
one package+event pair at different counts are distinct, and every
successful registration increases the event's handler count by one, so the
counts at successive registrations differ. -/
theorem synthesized_handler_names :
    (∀ (p : Package) (e : String),
      p.eventHandler (.str e) (.fn "") =
        ({ p with
            module := objSet p.module
              (p.name ++ "_" ++ e ++ "_" ++ natRepr ((jsLookup p.handlers e).getD []).length)
              (Entry.factory (.fn ""))
            handlers := objSet p.handlers e
              ((jsLookup p.handlers e).getD [] ++
               [p.name ++ "_" ++ e ++ "_" ++
                natRepr ((jsLookup p.handlers e).getD []).length]) }, none))
    ∧ (((freshPackage "core").eventHandler (.str "docsProcessed") (.fn "")).1.handlers
          = [("docsProcessed", ["core_docsProcessed_0"])])
    ∧ ((((freshPackage "core").eventHandler (.str "docsProcessed") (.fn "")).1.eventHandler
            (.str "docsProcessed") (.fn "")).1.handlers
          = [("docsProcessed", ["core_docsProcessed_0", "core_docsProcessed_1"])])
    ∧ (∀ (pn e : String) (n1 n2 : Nat), n1 ≠ n2 →
        pn ++ "_" ++ e ++ "_" ++ natRepr n1 ≠ pn ++ "_" ++ e ++ "_" ++ natRepr n2)
    ∧ (∀ (p : Package) (e fname : String),
        ((jsLookup ((p.eventHandler (.str e) (.fn fname)).1).handlers e).getD []).length
          = ((jsLookup p.handlers e).getD []).length + 1) := by
  refine ⟨?_, rfl, rfl, ?_, ?_⟩
  · intro p e
    rw [eventHandler_fn_eq]
    simp
  · intro pn e n1 n2 h hc
    exact h (string_append_natRepr_inj (pn ++ "_" ++ e ++ "_") hc)
  · intro p e fname
    rw [eventHandler_fn_eq]
    simp [jsLookup_objSet_self]

/-- C3 witness: distinctness of the first two synthesized names for the
"core"+"docsProcessed" pair. -/
theorem synthesized_handler_names_witness :
    "core" ++ "_" ++ "docsProcessed" ++ "_" ++ natRepr 0
      ≠ "core" ++ "_" ++ "docsProcessed" ++ "_" ++ natRepr 1 :=
  synthesized_handler_names.2.2.2.1 "core" "docsProcessed" 0 1 (by decide)

/-- C4: every successful `eventHandler(e, f)` call — with `h` the resolved
handler name, `f`'s own name when non-empty and the synthesized fallback
otherwise — writes `module[h]` as a factory entry holding `f` through the
delegated `factory` call, and appends `h` at the end of `handlers[e]`,
creating that list when the event had no prior handlers;
`eventHandler("docsProcessed", function myHandler(){})` yields a
`myHandler` factory entry and `handlers["docsProcessed"] ==
["myHandler"]`. -/
theorem eventHandler_delegates_to_factory :
    (∀ (p : Package) (e fname : String),
      p.eventHandler (.str e) (.fn fname) =
        ({ p with
            module := objSet p.module
              (if fname ≠ "" then fname
               else p.name ++ "_" ++ e ++ "_" ++
                 natRepr ((jsLookup p.handlers e).getD []).length)
              (Entry.factory (.fn fname))
            handlers := objSet p.handlers e
              ((jsLookup p.handlers e).getD [] ++
               [if fname ≠ "" then fname
                else p.name ++ "_" ++ e ++ "_" ++
                  natRepr ((jsLookup p.handlers e).getD []).length]) }, none))
    ∧ ((freshPackage "p").eventHandler (.str "docsProcessed") (.fn "myHandler")).1.module
        = [("myHandler", Entry.factory (.fn "myHandler"))]
    ∧ ((freshPackage "p").eventHandler (.str "docsProcessed") (.fn "myHandler")).1.handlers
        = [("docsProcessed", ["myHandler"])] :=
  ⟨fun p e fname => eventHandler_fn_eq p e fname, rfl, rfl⟩

/-- C4 witness: the general equation of `eventHandler_delegates_to_factory`
at an anonymous handler factory, where the resolved handler name is the
synthesized fallback. -/
theorem eventHandler_delegates_witness :
    (freshPackage "q").eventHandler (.str "generationEnd") (.fn "") =
      ({ freshPackage "q" with
          module := [("q_generationEnd_0", Entry.factory (.fn ""))]
          handlers := [("generationEnd", ["q_generationEnd_0"])] }, none) :=
  eventHandler_delegates_to_factory.1 (freshPackage "q") "generationEnd" ""

/-- C5: every registration call that throws leaves the whole descriptor
exactly as it was (all throw sites precede every mutation), and the listed
example failures raise the argument-type errors naming the expected kind:
`factory("x", 42)`, `type("x", 42)` with non-callables and `config` with a
non-callable. -/
theorem no_partial_mutation :
    (∀ (p : Package) (a b : JSVal), ((p.processor a b).2).isSome = true → (p.processor a b).1 = p)
    ∧ (∀ (p : Package) (a b : JSVal), ((p.factory a b).2).isSome = true → (p.factory a b).1 = p)
    ∧ (∀ (p : Package) (a b : JSVal), ((p.type a b).2).isSome = true → (p.type a b).1 = p)
    ∧ (∀ (p : Package) (a : JSVal), ((p.config a).2).isSome = true → (p.config a).1 = p)
    ∧ (∀ (p : Package) (a b : JSVal),
        ((p.eventHandler a b).2).isSome = true → (p.eventHandler a b).1 = p)
    ∧ (∀ p : Package, p.factory (.str "x") (.num 42) = (p, some (.serviceFactoryNotFn "number")))
    ∧ (∀ p : Package, p.type (.str "x") (.num 42) = (p, some .serviceTypeNotFn))
    ∧ (∀ (p : Package) (n : Int), p.config (.num n) = (p, some .configFnNotFn)) := by
  refine ⟨?_, ?_, ?_, ?_, ?_, fun p => rfl, fun p => rfl, fun p n => rfl⟩
  · intro p a b h
    cases hr : resolveName .processorDefNoName a b with
    | error e0 => simp [Package.processor, hr]
    | ok v => obtain ⟨nm, pd⟩ := v; simp [Package.processor, hr] at h
  · intro p a b h
    cases hr : resolveName .serviceFactoryNoName a b with
    | error e0 => simp [Package.factory, hr]
    | ok v =>
        obtain ⟨nm, sf⟩ := v
        by_cases ht : typeof sf = "function"
        · simp [Package.factory, hr, ht] at h
        · simp [Package.factory, hr, ht]
  · intro p a b h
    cases hr : resolveName .serviceTypeNoName a b with
    | error e0 => simp [Package.type, hr]
    | ok v =>
        obtain ⟨nm, st⟩ := v
        by_cases ht : typeof st = "function"
        · simp [Package.type, hr, ht] at h
        · simp [Package.type, hr, ht]
  · intro p a h
    by_cases ht : typeof a = "function"
    · simp [Package.config, ht] at h
    · simp [Package.config, ht]
  · intro p a b h
    by_cases ha : typeof a = "string"
    · by_cases hb : typeof b = "function"
      · cases a <;> simp [typeof] at ha
        cases b <;> simp [typeof] at hb
        rw [eventHandler_fn_eq] at h
        simp at h
      · simp [Package.eventHandler, ha, hb]
    · simp [Package.eventHandler, ha]

/-- C5 witness: error-state preservation and error classification of
`no_partial_mutation` at concrete failing inputs. -/
theorem no_partial_mutation_witness :
    ((freshPackage "w").processor (.obj []) .undefined).1 = freshPackage "w"
    ∧ (freshPackage "w").factory (.str "x") (.num 42)
        = (freshPackage "w", some (.serviceFactoryNotFn "number")) :=
  ⟨no_partial_mutation.1 (freshPackage "w") (.obj []) .undefined rfl,
   no_partial_mutation.2.2.2.2.2.1 (freshPackage "w")⟩

/-- C6: when two registration calls (any mix of `processor`, `factory`,
`type`) both successfully write the same module name, the second call also
succeeds on the state left by the first (no error from overwriting) and
the module afterwards holds exactly the second call's entry under that
name (last-write-wins). -/
theorem last_write_wins :
    ∀ (p : Package) (c1 c2 : RegCall) (n : String) (e1 e2 : Entry),
      c1.result = .ok (n, e1) → c2.result = .ok (n, e2) →
      (c2.apply ((c1.apply p).1)).2 = none
      ∧ jsLookup ((c2.apply ((c1.apply p).1)).1).module n = some e2 := by
  intro p c1 c2 n e1 e2 h1 h2
  obtain ⟨-, hm1⟩ := regCall_apply_ok c1 p n e1 h1
  obtain ⟨hs2, hm2⟩ := regCall_apply_ok c2 ((c1.apply p).1) n e2 h2
  exact ⟨hs2, by rw [hm2, jsLookup_objSet_self]⟩

/-- C6 witness: value-over-factory overwrite under the name "x" via
`last_write_wins` at concrete calls. -/
theorem last_write_wins_witness :
    ((RegCall.processor (.str "x") (.num 2)).apply
        (((RegCall.factory (.str "x") (.fn "f1")).apply (freshPackage "q")).1)).2 = none
    ∧ jsLookup (((RegCall.processor (.str "x") (.num 2)).apply
        (((RegCall.factory (.str "x") (.fn "f1")).apply (freshPackage "q")).1)).1).module "x"
        = some (Entry.value (.num 2)) :=
  last_write_wins (freshPackage "q") (RegCall.factory (.str "x") (.fn "f1"))
    (RegCall.processor (.str "x") (.num 2)) "x" (Entry.factory (.fn "f1"))
    (Entry.value (.num 2)) rfl rfl

/-- C7: every successful `processor` call writes a factory entry when the
definition is callable and a value entry otherwise and appends the resolved
name to `processors` exactly once; a factory function with intrinsic name
"foo" yields `module["foo"]` as a factory entry with "foo" appended once;
re-registering the same processor name duplicates it in `processors` while
the module map keeps a single entry for that key. -/
theorem processor_registration :
    (∀ (p : Package) (s : String) (b : JSVal),
        p.processor (.str s) b =
          ({ p with module := objSet p.module s
                      (if typeof b = "function" then Entry.factory b else Entry.value b)
                    processors := p.processors ++ [.str s] }, none))
    ∧ (∀ (p : Package) (a b nm : JSVal), typeof a ≠ "string" →
        getProp a "name" = .ok nm → truthy nm = true →
        p.processor a b =
          ({ p with module := objSet p.module (toPropertyKey nm)
                      (if typeof a = "function" then Entry.factory a else Entry.value a)
                    processors := p.processors ++ [nm] }, none))
    ∧ (((freshPackage "p").processor (.fn "foo") .undefined).1.module
          = [("foo", Entry.factory (.fn "foo"))]
       ∧ ((freshPackage "p").processor (.fn "foo") .undefined).1.processors = [.str "foo"])
    ∧ (∀ (p : Package) (s : String) (d1 d2 : JSVal),
        (p.module.map Prod.fst).count s = 0 →
        (((p.processor (.str s) d1).1.processor (.str s) d2).1.processors
            = p.processors ++ [.str s, .str s])
        ∧ ((((p.processor (.str s) d1).1.processor (.str s) d2).1.module.map Prod.fst).count s
            = 1)
        ∧ jsLookup (((p.processor (.str s) d1).1.processor (.str s) d2).1).module s
            = some (if typeof d2 = "function" then Entry.factory d2 else Entry.value d2)) := by
  refine ⟨fun p s b => processor_str_eq p s b, ?_, ⟨rfl, rfl⟩, ?_⟩
  · intro p a b nm ha hn ht
    simp [Package.processor, resolveName, ha, hn, ht]
  · intro p s d1 d2 hcount
    have hnotmem : s ∉ p.module.map Prod.fst := List.count_eq_zero.mp hcount
    refine ⟨?_, ?_, ?_⟩
    · simp [processor_str_eq]
    · simp only [processor_str_eq, objSet_objSet]
      rw [objSet_keys, if_neg hnotmem]
      simp [List.count_append, hcount]
    · simp [processor_str_eq, objSet_objSet, jsLookup_objSet_self]

/-- C7 witness: the duplicate-registration clause of
`processor_registration` starting from a fresh package. -/
theorem processor_registration_witness :
    ((((freshPackage "r").processor (.str "dup") (.fn "a")).1.processor
        (.str "dup") (.num 1)).1.processors = [.str "dup", .str "dup"])
    ∧ (((((freshPackage "r").processor (.str "dup") (.fn "a")).1.processor
        (.str "dup") (.num 1)).1.module.map Prod.fst).count "dup" = 1) := by
  have h := processor_registration.2.2.2 (freshPackage "r") "dup" (.fn "a") (.num 1) rfl
  exact ⟨h.1, h.2.1⟩

/-- C10: `processor(n)` with the definition argument omitted (JS passes
`undefined`) succeeds for any non-empty explicit name: it writes a value
entry whose payload is `undefined` under `n`, appends `n` to the processor
list and returns the descriptor — no validation requires a definition when
an explicit name is given. -/
theorem processor_omitted_definition (p : Package) (n : String) (h : n ≠ "") :
    p.processor (.str n) .undefined =
      ({ p with module := objSet p.module n (Entry.value .undefined)
                processors := p.processors ++ [.str n] }, none) := rfl

/-- C10 witness: `processor_omitted_definition` at a concrete name. -/
theorem processor_omitted_definition_witness :
    (freshPackage "p").processor (.str "myProc") .undefined =
      ({ freshPackage "p" with
          module := objSet (freshPackage "p").module "myProc" (Entry.value .undefined)
          processors := (freshPackage "p").processors ++ [.str "myProc"] }, none) :=
  processor_omitted_definition (freshPackage "p") "myProc" (by decide)

end Dgeni
